import Mathlib

/-!
Verification of the `@twg-group/nestjs-logger` core (`src/logger.ts`):
a shallow embedding of the Logger class — its JS value universe, the
redaction engine, the level gate, the timestamp-diff tracker, the JSON
record builder and the text renderer — together with theorems settling
the specification's claims about them.
-/

namespace NestLogger

/-- A JavaScript runtime value, as the logger manipulates them.
`verr name message stack cause entries` models an `Error` instance:
its `name`/`message` fields, its optional `stack` string, its `cause`
property (`none` when the object carries no `cause` property), and the
list of its enumerable own properties (what `Object.entries` returns
on the error object, usually empty). -/
inductive JsVal : Type where
  | vstr : String → JsVal
  | vnum : Int → JsVal
  | vbool : Bool → JsVal
  | vnull : JsVal
  | vundefined : JsVal
  | varr : List JsVal → JsVal
  | vobj : List (String × JsVal) → JsVal
  | verr : String → String → Option String → Option JsVal → List (String × JsVal) → JsVal
  deriving Repr

/-- JavaScript truthiness (`Boolean(v)`); `NaN` is outside the model. -/
def jsTruthy : JsVal → Bool
  | .vstr s => !s.isEmpty
  | .vnum n => n != 0
  | .vbool b => b
  | .vnull => false
  | .vundefined => false
  | .varr _ => true
  | .vobj _ => true
  | .verr _ _ _ _ _ => true

/-- Tests whether a value is JS `undefined` (the values
`JSON.stringify` drops from object position). -/
def isUndefined : JsVal → Bool
  | .vundefined => true
  | _ => false

/-- `typeof v === 'object' && v !== null`: arrays, plain objects and
Error instances qualify; `null` is excluded by the explicit check. -/
def isObjectNonNull : JsVal → Bool
  | .varr _ => true
  | .vobj _ => true
  | .verr _ _ _ _ _ => true
  | _ => false

mutual
/-- `String(v)` / template-literal conversion of a value. -/
def jsToString : JsVal → String
  | .vstr s => s
  | .vnum n => toString n
  | .vbool b => if b then "true" else "false"
  | .vnull => "null"
  | .vundefined => "undefined"
  | .varr xs => String.intercalate "," (jsToStringArr xs)
  | .vobj _ => "[object Object]"
  | .verr n m _ _ _ => if m.isEmpty then n else n ++ ": " ++ m

/-- `Array.prototype.join` element conversion: `null`/`undefined`
render as the empty string inside arrays. -/
def jsToStringArr : List JsVal → List String
  | [] => []
  | .vnull :: xs => "" :: jsToStringArr xs
  | .vundefined :: xs => "" :: jsToStringArr xs
  | x :: xs => jsToString x :: jsToStringArr xs
end

/-- `String.prototype.toLowerCase` on the ASCII range (the embedding
does not model Unicode case mapping). -/
def toLowerAscii (s : String) : String :=
  String.mk (s.data.map fun c => if 'A' ≤ c ∧ c ≤ 'Z' then Char.ofNat (c.toNat + 32) else c)

/-- The per-key redaction test of `redactSensitiveData`
(`Array.from(redactKeys).some(rk => key.toLowerCase() === rk.toLowerCase())`). -/
def shouldRedact (keys : List String) (k : String) : Bool :=
  keys.any fun rk => toLowerAscii k == toLowerAscii rk

mutual
/-- `Logger.redactSensitiveData` (src/logger.ts:475-492), parameterised
by the key list the engine consults (`this.config.redactKeys`).
`null` and primitives are returned unchanged (`obj == null || typeof obj
!== 'object'`); arrays are mapped element-wise; any other object —
including an Error instance — is rebuilt from its `Object.entries`,
replacing the value of every matching key by `"[REDACTED]"` and
recursing into non-matching values. -/
def redactV (keys : List String) : JsVal → JsVal
  | .vstr s => .vstr s
  | .vnum n => .vnum n
  | .vbool b => .vbool b
  | .vnull => .vnull
  | .vundefined => .vundefined
  | .varr xs => .varr (redactL keys xs)
  | .vobj es => .vobj (redactE keys es)
  | .verr _ _ _ _ en => .vobj (redactE keys en)

/-- Element-wise redaction of an array (`obj.map(item => this.redactSensitiveData(item))`). -/
def redactL (keys : List String) : List JsVal → List JsVal
  | [] => []
  | x :: xs => redactV keys x :: redactL keys xs

/-- The `for (const [key, value] of Object.entries(obj))` loop body. -/
def redactE (keys : List String) : List (String × JsVal) → List (String × JsVal)
  | [] => []
  | (k, v) :: es =>
      (k, if shouldRedact keys k then .vstr "[REDACTED]" else redactV keys v) :: redactE keys es
end

mutual
/-- The object reachable from a `JSON.stringify` / `JSON.parse` round
trip of a value: object entries whose value is `undefined` are dropped,
array elements that are `undefined` become `null`, and an Error
serialises through its enumerable own properties (so a bare Error
becomes `{}`). -/
def jsonRound : JsVal → JsVal
  | .vstr s => .vstr s
  | .vnum n => .vnum n
  | .vbool b => .vbool b
  | .vnull => .vnull
  | .vundefined => .vnull
  | .varr xs => .varr (jsonRoundArr xs)
  | .vobj es => .vobj (jsonRoundObj es)
  | .verr _ _ _ _ en => .vobj (jsonRoundObj en)

def jsonRoundArr : List JsVal → List JsVal
  | [] => []
  | .vundefined :: xs => .vnull :: jsonRoundArr xs
  | x :: xs => jsonRound x :: jsonRoundArr xs

def jsonRoundObj : List (String × JsVal) → List (String × JsVal)
  | [] => []
  | (_, .vundefined) :: es => jsonRoundObj es
  | (k, v) :: es => (k, jsonRound v) :: jsonRoundObj es
end

/-- Whether an entry list binds a key (`k in obj`). -/
def hasKey : List (String × JsVal) → String → Bool
  | [], _ => false
  | (k₀, _) :: es, k => k₀ = k || hasKey es k

/-- JavaScript property assignment / object-literal semantics on an
entry list: overwrite the value at an existing key in place, otherwise
append the new binding. -/
def setKey (es : List (String × JsVal)) (k : String) (v : JsVal) : List (String × JsVal) :=
  if hasKey es k then es.map (fun e => if e.1 = k then (k, v) else e)
  else es ++ [(k, v)]

/-- Property lookup on an entry list (first binding wins, as in a real
JS object, where keys are unique). -/
def getKey : List (String × JsVal) → String → Option JsVal
  | [], _ => none
  | (k₀, v₀) :: es, k => if k₀ = k then some v₀ else getKey es k

/-- The stored key list of an entry list. -/
def objKeys (es : List (String × JsVal)) : List String := es.map (fun e => e.1)

/-- `new Set(xs).add(x)` step: JS `Set` keeps the first insertion, so
adding an existing element is a no-op and a new one is appended. -/
def setAddStr (s : List String) (x : String) : List String :=
  if x ∈ s then s else s ++ [x]

/-- `Set.delete`. -/
def setDelStr (s : List String) (x : String) : List String :=
  s.filter (fun y => y ≠ x)

/-- `new Set(xs)`: deduplicate, keeping first occurrences in order. -/
def setOfList (xs : List String) : List String := xs.foldl setAddStr []

/-- `process.env.SERVICE_NAME || 'Nest'`: the environment value when it
is set and non-empty (truthy), else the literal `'Nest'`. -/
def serviceName (env : Option String) : String :=
  match env with
  | some s => if s.isEmpty then "Nest" else s
  | none => "Nest"

/-- The subset of `LoggerOptions` fields the core consults
(src/interfaces.ts); `none` means the field is absent from the object. -/
structure LoggerOptions where
  id : Option String := none
  jsonFormat : Option Bool := none
  prettyPrintJson : Option Bool := none
  timestamp : Option Bool := none
  redactKeys : Option (List String) := none
  logLevels : Option (List String) := none
  deriving Repr, DecidableEq

/-- Object-spread merge `{...o1, ...o2}`: a field present in `o2` wins. -/
def mergeOpts (o1 o2 : LoggerOptions) : LoggerOptions where
  id := o2.id <|> o1.id
  jsonFormat := o2.jsonFormat <|> o1.jsonFormat
  prettyPrintJson := o2.prettyPrintJson <|> o1.prettyPrintJson
  timestamp := o2.timestamp <|> o1.timestamp
  redactKeys := o2.redactKeys <|> o1.redactKeys
  logLevels := o2.logLevels <|> o1.logLevels

/-- `defaultOptions` (src/logger.ts:51-58), with `id` computed from the
environment read at module load time. -/
def defaultOptions (envAtLoad : Option String) : LoggerOptions where
  id := some (serviceName envAtLoad)
  jsonFormat := some false
  prettyPrintJson := some false
  redactKeys := some []
  logLevels := some ["log", "error", "warn", "debug", "verbose", "fatal", "info"]

/-- The resolved `this.config` object: the fields of `LoggerOptions`
the logging paths read. A `Bool` field models a possibly-absent flag
(`undefined` is falsy, hence `false`). -/
structure LoggerConfig where
  id : Option String
  jsonFormat : Bool
  prettyPrintJson : Bool
  timestamp : Bool
  redactKeys : List String
  deriving Repr, DecidableEq

/-- `{...this.config, ...options}`: fields present in `options`
overwrite the stored configuration. -/
def applyOpts (c : LoggerConfig) (o : LoggerOptions) : LoggerConfig where
  id := o.id <|> c.id
  jsonFormat := (o.jsonFormat.map (fun b => b)).getD c.jsonFormat
  prettyPrintJson := o.prettyPrintJson.getD c.prettyPrintJson
  timestamp := o.timestamp.getD c.timestamp
  redactKeys := o.redactKeys.getD c.redactKeys

/-- The mutable state of one `Logger` instance: its private fields plus
the `context` inherited from the base `ConsoleLogger`.  `timestamp` is
the tracker's `lastTimestampMs` (the field starts uninitialised in the
source; its only read, `this.timestamp > 0`, cannot tell `undefined`
from `0`, so it is modelled as `0`). -/
structure LoggerState where
  context : Option String
  config : LoggerConfig
  timestamp : Int
  ctxParams : List String
  additionalFields : List (String × JsVal)
  redactKeys : List String
  logLevels : List String
  deriving Repr

namespace Logger

/-- `Logger.setContext`. -/
def setContext (st : LoggerState) (c : String) : LoggerState := { st with context := some c }

/-- `Logger.setLogLevels`. -/
def setLogLevels (st : LoggerState) (levels : List String) : LoggerState :=
  { st with logLevels := setOfList levels }

/-- `Logger.addLogLevel`. -/
def addLogLevel (st : LoggerState) (l : String) : LoggerState :=
  { st with logLevels := setAddStr st.logLevels l }

/-- `Logger.removeLogLevel`. -/
def removeLogLevel (st : LoggerState) (l : String) : LoggerState :=
  { st with logLevels := setDelStr st.logLevels l }

/-- `Logger.getLogLevels` (`Array.from(this.logLevels)`). -/
def getLogLevels (st : LoggerState) : List String := st.logLevels

/-- `Logger.setCtxParams`. -/
def setCtxParams (st : LoggerState) (ps : List String) : LoggerState := { st with ctxParams := ps }

/-- `Logger.resetTimestamp` (`this.timestamp = 0`). -/
def resetTimestamp (st : LoggerState) : LoggerState := { st with timestamp := 0 }

/-- `Logger.enableJsonFormat`. -/
def enableJsonFormat (st : LoggerState) : LoggerState :=
  { st with config := { st.config with jsonFormat := true } }

/-- `Logger.disableJsonFormat`. -/
def disableJsonFormat (st : LoggerState) : LoggerState :=
  { st with config := { st.config with jsonFormat := false } }

/-- `Logger.enablePrettyPrint`. -/
def enablePrettyPrint (st : LoggerState) : LoggerState :=
  { st with config := { st.config with prettyPrintJson := true } }

/-- `Logger.disablePrettyPrint`. -/
def disablePrettyPrint (st : LoggerState) : LoggerState :=
  { st with config := { st.config with prettyPrintJson := false } }

/-- `Logger.addField` (`this.additionalFields[key] = value`). -/
def addField (st : LoggerState) (k : String) (v : JsVal) : LoggerState :=
  { st with additionalFields := setKey st.additionalFields k v }

/-- `Logger.removeField` (`delete this.additionalFields[key]`). -/
def removeField (st : LoggerState) (k : String) : LoggerState :=
  { st with additionalFields := st.additionalFields.filter (fun e => e.1 ≠ k) }

/-- `Logger.setRedactKeys` (`this.redactKeys = new Set(keys)`). -/
def setRedactKeys (st : LoggerState) (keys : List String) : LoggerState :=
  { st with redactKeys := setOfList keys }

/-- `Logger.addRedactKey` (`this.redactKeys.add(key)`). -/
def addRedactKey (st : LoggerState) (k : String) : LoggerState :=
  { st with redactKeys := setAddStr st.redactKeys k }

/-- `Logger.removeRedactKey` (`this.redactKeys.delete(key)`). -/
def removeRedactKey (st : LoggerState) (k : String) : LoggerState :=
  { st with redactKeys := setDelStr st.redactKeys k }

/-- `Logger.getRedactKeys` (`Array.from(this.redactKeys)`). -/
def getRedactKeys (st : LoggerState) : List String := st.redactKeys

/-- `Logger.setOptions`: merge into `this.config`, then install redact
keys / log levels only when the supplied arrays are non-empty
(`options.redactKeys?.length > 0`, `options.logLevels?.length > 0`). -/
def setOptions (st : LoggerState) (o : LoggerOptions) : LoggerState :=
  let st := { st with config := applyOpts st.config o }
  let st := match o.redactKeys with
    | some ks => if ks ≠ [] then setRedactKeys st ks else st
    | none => st
  match o.logLevels with
  | some ls => if ls ≠ [] then setLogLevels st ls else st
  | none => st

/-- The `Logger` constructor: context falls back to the inquirer's
class name when absent or empty (`context || parentClass?.constructor?.name`),
options merge as `{...defaultOptions, ...moduleOptions?.loggerOptions, ...options}`,
and `setOptions` installs the result.  `envAtLoad` is the
`process.env.SERVICE_NAME` value when `defaultOptions` was evaluated. -/
def mkLogger (envAtLoad : Option String) (context : Option String)
    (parentName : Option String) (moduleOpts callerOpts : LoggerOptions) : LoggerState :=
  let currentContext := match context with
    | some c => if c.isEmpty then parentName else some c
    | none => parentName
  let merged := mergeOpts (mergeOpts (defaultOptions envAtLoad) moduleOpts) callerOpts
  setOptions
    { context := currentContext
      config := { id := none, jsonFormat := false, prettyPrintJson := false,
                  timestamp := false, redactKeys := [] }
      timestamp := 0
      ctxParams := []
      additionalFields := []
      redactKeys := []
      logLevels := [] } merged

/-- `Logger.getTimestampDiff` (src/logger.ts:513-518): returns
`now - lastTimestampMs` when a previous timestamp is recorded
(`this.timestamp > 0`), else `0`, and stores `now`. -/
def getTimestampDiff (st : LoggerState) (now : Int) : Int × LoggerState :=
  (if st.timestamp > 0 then now - st.timestamp else 0, { st with timestamp := now })

end Logger

/-- Accumulator loop of `String.prototype.split('\n')`: cut the
character stream at every newline. -/
def splitLinesGo : List Char → List Char → List String
  | [], acc => [String.mk acc.reverse]
  | c :: cs, acc =>
      if c = '\n' then String.mk acc.reverse :: splitLinesGo cs []
      else splitLinesGo cs (c :: acc)

/-- `error.stack?.split('\n')` splitting: JS `split` with a string
separator, which always yields at least one piece. -/
def splitLines (s : String) : List String := splitLinesGo s.data []

/-- `Logger.formatError` (src/logger.ts:459-468): projects an Error to
`{ error: { name, message, stack, ...(cause ? { cause } : {}) } }`.
An absent stack leaves the `stack` property `undefined`; the `cause`
entry is spread in only when the `cause` property value is truthy. -/
def formatError (n m : String) (stack : Option String) (cause : Option JsVal) :
    List (String × JsVal) :=
  [("error", .vobj
    ([("name", .vstr n), ("message", .vstr m),
      ("stack", match stack with
        | some s => .varr ((splitLines s).map .vstr)
        | none => .vundefined)] ++
     (if jsTruthy (cause.getD .vundefined) then [("cause", cause.getD .vundefined)] else [])))]

/-- `Logger.format` (src/logger.ts:444-452): an Error goes through
`formatError`; any other non-null object goes through the redaction
engine; everything else is wrapped as `{ message: String(message) }`. -/
def format (keys : List String) (message : JsVal) : JsVal :=
  match message with
  | .verr n m stack cause _ => .vobj (formatError n m stack cause)
  | .varr xs => redactV keys (.varr xs)
  | .vobj es => redactV keys (.vobj es)
  | v => .vobj [("message", .vstr (jsToString v))]

/-- The `params.map(...)` preprocessing at the top of
`Logger.logMessage` (src/logger.ts:377-382): each parameter that is a
non-null object — arrays, plain objects and Error instances alike — is
passed to `redactSensitiveData`; all other values pass through. -/
def processParams (keys : List String) (ps : List JsVal) : List JsVal :=
  ps.map fun p => if isObjectNonNull p then redactV keys p else p

/-- `this.context` as the JS value placed in the record (`undefined`
when no context is set). -/
def jsOfCtx : Option String → JsVal
  | some c => .vstr c
  | none => .vundefined

/-- `Logger.formatToJson` (src/logger.ts:415-437), up to JSON encoding:
builds the `logEntry` object (additional fields spread first, then the
computed keys, then the conditional `tags` and `timestampDiff`
assignments) and threads the timestamp tracker.  `envNow` is the
`process.env.SERVICE_NAME` value at the moment of the call — the
source re-reads it here —, `nowIso` the `new Date().toISOString()`
string and `now` the `Date.now()` reading. -/
def formatToJson (st : LoggerState) (envNow : Option String) (now : Int) (nowIso : String)
    (level : String) (message : JsVal) (params : List JsVal) :
    List (String × JsVal) × LoggerState :=
  let base :=
    setKey (setKey (setKey (setKey (setKey st.additionalFields
      "timestamp" (.vstr nowIso))
      "service" (.vstr (serviceName envNow)))
      "level" (.vstr level))
      "context" (jsOfCtx st.context))
      "data" (format st.config.redactKeys message)
  let withTags :=
    if st.ctxParams.length > 0 ∨ params.length > 0 then
      setKey base "tags" (.varr (st.ctxParams.map .vstr ++ params))
    else base
  if st.config.timestamp then
    let (d, st') := Logger.getTimestampDiff st now
    (setKey withTags "timestampDiff" (.vnum d), st')
  else (withTags, st)

/-- The decoded form of the emitted structured record: the `logEntry`
object after its `JSON.stringify`/`JSON.parse` round trip (pretty
printing only changes whitespace, never the decoded value). -/
def decodedRecord (es : List (String × JsVal)) : List (String × JsVal) := jsonRoundObj es

section Colors

/-- `\x1b[90m…\x1b[0m` — `colorsExtended.gray` (src/interfaces.ts). -/
def clcGray (s : String) : String := "\x1b[90m" ++ s ++ "\x1b[0m"

/-- `colorsExtended.redBright`. -/
def clcRedBright (s : String) : String := "\x1b[91m" ++ s ++ "\x1b[0m"

/-- `colorsExtended.greenBright`. -/
def clcGreenBright (s : String) : String := "\x1b[92m" ++ s ++ "\x1b[0m"

/-- `colorsExtended.yellowBright`. -/
def clcYellowBright (s : String) : String := "\x1b[93m" ++ s ++ "\x1b[0m"

/-- `colorsExtended.blueBright`. -/
def clcBlueBright (s : String) : String := "\x1b[94m" ++ s ++ "\x1b[0m"

/-- `colorsExtended.magentaBright`. -/
def clcMagentaBright (s : String) : String := "\x1b[95m" ++ s ++ "\x1b[0m"

/-- `colorsExtended.cyanBright`. -/
def clcCyanBright (s : String) : String := "\x1b[96m" ++ s ++ "\x1b[0m"

/-- Modelled from the spec: the host framework's `clc.bold`
(an external cli-colors utility, colors enabled). -/
def clcBold (s : String) : String := "\x1b[1m" ++ s ++ "\x1b[0m"

/-- Modelled from the spec: the host framework's `clc.green`. -/
def clcGreen (s : String) : String := "\x1b[32m" ++ s ++ "\x1b[39m"

/-- Modelled from the spec: the host framework's `clc.yellow`. -/
def clcYellow (s : String) : String := "\x1b[33m" ++ s ++ "\x1b[39m"

/-- The `levelFormats` table (src/logger.ts:20-49) as
`(levelColor?, messageColor?)` per level name.  `FATAL` references
`clc.redOrange`/`clc.brightRedOrange`, which no color table defines, so
its entries are absent at runtime. -/
def levelFormats (level : String) : Option (String → String) × Option (String → String) :=
  match level with
  | "LOG" => (some clcGreenBright, none)
  | "ERROR" => (some clcRedBright, some clcRedBright)
  | "FATAL" => (none, none)
  | "WARN" => (some clcYellowBright, some clcYellowBright)
  | "INFO" => (some clcCyanBright, some clcCyanBright)
  | "DEBUG" => (some clcMagentaBright, some clcMagentaBright)
  | "VERBOSE" => (some clcBlueBright, some clcBlueBright)
  | _ => (none, none)

end Colors

/-- `level.padStart(5)`. -/
def padStart5 (s : String) : String :=
  if s.length ≥ 5 then s else String.mk (List.replicate (5 - s.length) ' ') ++ s

/-- `Logger.prefix` (src/logger.ts:109-114): the colored
`[serviceId]` segment followed by the gray ISO timestamp.  An absent
`config.id` renders through the template literal as `undefined`. -/
def prefixText (st : LoggerState) (nowIso : String) : String :=
  clcGreen ("[" ++ (match st.config.id with | some i => i | none => "undefined") ++ "]") ++
  clcGray (" " ++ nowIso)

/-- `Logger.pre` (src/logger.ts:401-406): the prefix plus the bolded,
padded, colored level tag (`clc.gray` when the level color is absent). -/
def pre (st : LoggerState) (nowIso : String) (level : String)
    (colorFn : Option (String → String)) : String × String :=
  (prefixText st nowIso, (colorFn.getD clcGray) (clcBold (padStart5 level)))

/-- The bracket segments of `Logger.ctxWithParams`
(src/logger.ts:499-507): `[this.context, ...this.ctxParams, ...params]`
filtered by truthiness (`filter(Boolean)`) and each wrapped in
brackets. -/
def ctxCoreList (ctx : Option String) (ctxParams : List String) (params : List JsVal) :
    List String :=
  ((jsOfCtx ctx :: (ctxParams.map JsVal.vstr ++ params)).filter jsTruthy).map
    (fun v => "[" ++ jsToString v ++ "]")

/-- `Logger.ctxWithParams`: the joined bracket segments, colored yellow. -/
def ctxWithParams (st : LoggerState) (params : List JsVal) : String :=
  clcYellow (String.join (ctxCoreList st.context st.ctxParams params))

/-- Modelled from the spec: Node's external `util.inspect`, the
"structured pretty-printed/inline rendering" of §4.5.  No claim depends
on its output text, only on where the renderer places it. -/
def inspectText (_pretty : Bool) (v : JsVal) : String := jsToString v

/-- `Logger.wrapParams` (src/logger.ts:525-530): appends the
`+Nms` tag (consuming a tracker tick) when `config.timestamp` is set,
then renders the context segment. -/
def wrapParams (st : LoggerState) (now : Int) (params : List JsVal) :
    String × LoggerState :=
  if st.config.timestamp then
    let (d, st') := Logger.getTimestampDiff st now
    (ctxWithParams st' (params ++ [.vstr ("+" ++ toString d ++ "ms")]), st')
  else (ctxWithParams st params, st)

/-- `Logger.wrapMessage` (src/logger.ts:539-568): a string message is
colored (with the `+Nms` suffix when timestamping), any other message
is rendered through `util.inspect` after `wrapParams`. -/
def wrapMessage (st : LoggerState) (now : Int) (message : JsVal) (params : List JsVal)
    (colorFn : Option (String → String)) : List String × LoggerState :=
  match message with
  | .vstr s =>
      let colored := (colorFn.getD id) s
      if st.config.timestamp then
        let (d, st') := Logger.getTimestampDiff st now
        ([ctxWithParams st params, colored ++ clcYellow (" +" ++ toString d ++ "ms")], st')
      else ([ctxWithParams st params, colored], st)
  | _ =>
      let (p, st') := wrapParams st now params
      ([p, inspectText st.config.prettyPrintJson message], st')

/-- The destination sink of a write (`console.log` / `console.error` /
`console.warn` / `console.info` / `console.debug`). -/
inductive Sink : Type where
  | stdout | errSink | warnSink | infoSink | debugSink
  deriving Repr, DecidableEq

/-- One argument of a console write: either the encoded structured
record (single-line or pretty — they differ only in whitespace) or a
piece of rendered text. -/
inductive WriteArg : Type where
  | jsonRecord : List (String × JsVal) → Bool → WriteArg
  | text : String → WriteArg
  deriving Repr

/-- One call to a console method. -/
structure Write where
  sink : Sink
  args : List WriteArg
  deriving Repr

/-- `Logger.logMessage` (src/logger.ts:371-393): preprocess (redact)
the parameters, then emit exactly one write — the JSON record in
`jsonFormat` mode, or `(prefix, levelTag, ...wrapMessage)` in text
mode. -/
def logMessage (st : LoggerState) (envNow : Option String) (now : Int) (nowIso : String)
    (level : String) (message : JsVal) (params : List JsVal) (sink : Sink) :
    List Write × LoggerState :=
  let processedParams := processParams st.config.redactKeys params
  if st.config.jsonFormat then
    let (entries, st') := formatToJson st envNow now nowIso level message processedParams
    ([⟨sink, [.jsonRecord entries st.config.prettyPrintJson]⟩], st')
  else
    let (levelColor, messageColor) := levelFormats level
    let (pfx, levelText) := pre st nowIso level levelColor
    let (parts, st') := wrapMessage st now message processedParams messageColor
    ([⟨sink, .text pfx :: .text levelText :: parts.map .text⟩], st')

namespace Logger

/-- `Logger.log` (src/logger.ts:299-302): gate on `'log'`, then
`logMessage('LOG', …)` on `console.log`. -/
def log (st : LoggerState) (envNow : Option String) (now : Int) (nowIso : String)
    (message : JsVal) (params : List JsVal) : List Write × LoggerState :=
  if st.logLevels.contains "log" then
    logMessage st envNow now nowIso "LOG" message params .stdout
  else ([], st)

/-- `Logger.error` (src/logger.ts:309-312). -/
def error (st : LoggerState) (envNow : Option String) (now : Int) (nowIso : String)
    (message : JsVal) (params : List JsVal) : List Write × LoggerState :=
  if st.logLevels.contains "error" then
    logMessage st envNow now nowIso "ERROR" message params .errSink
  else ([], st)

/-- `Logger.fatal` (src/logger.ts:319-322). -/
def fatal (st : LoggerState) (envNow : Option String) (now : Int) (nowIso : String)
    (message : JsVal) (params : List JsVal) : List Write × LoggerState :=
  if st.logLevels.contains "fatal" then
    logMessage st envNow now nowIso "FATAL" message params .errSink
  else ([], st)

/-- `Logger.warn` (src/logger.ts:329-332). -/
def warn (st : LoggerState) (envNow : Option String) (now : Int) (nowIso : String)
    (message : JsVal) (params : List JsVal) : List Write × LoggerState :=
  if st.logLevels.contains "warn" then
    logMessage st envNow now nowIso "WARN" message params .warnSink
  else ([], st)

/-- `Logger.info` (src/logger.ts:339-342). -/
def info (st : LoggerState) (envNow : Option String) (now : Int) (nowIso : String)
    (message : JsVal) (params : List JsVal) : List Write × LoggerState :=
  if st.logLevels.contains "info" then
    logMessage st envNow now nowIso "INFO" message params .infoSink
  else ([], st)

/-- `Logger.debug` (src/logger.ts:349-352). -/
def debug (st : LoggerState) (envNow : Option String) (now : Int) (nowIso : String)
    (message : JsVal) (params : List JsVal) : List Write × LoggerState :=
  if st.logLevels.contains "debug" then
    logMessage st envNow now nowIso "DEBUG" message params .debugSink
  else ([], st)

/-- `Logger.verbose` (src/logger.ts:359-362). -/
def verbose (st : LoggerState) (envNow : Option String) (now : Int) (nowIso : String)
    (message : JsVal) (params : List JsVal) : List Write × LoggerState :=
  if st.logLevels.contains "verbose" then
    logMessage st envNow now nowIso "VERBOSE" message params .stdout
  else ([], st)

end Logger

/-- The seven public level names. -/
inductive LevelName : Type where
  | lvLog | lvError | lvWarn | lvDebug | lvVerbose | lvFatal | lvInfo
  deriving Repr, DecidableEq

/-- The `LogLevel` string the entry point's gate tests. -/
def levelKey : LevelName → String
  | .lvLog => "log"
  | .lvError => "error"
  | .lvWarn => "warn"
  | .lvDebug => "debug"
  | .lvVerbose => "verbose"
  | .lvFatal => "fatal"
  | .lvInfo => "info"

/-- Dispatch to the level's public entry point. -/
def entryPoint (lv : LevelName) (st : LoggerState) (envNow : Option String) (now : Int)
    (nowIso : String) (message : JsVal) (params : List JsVal) : List Write × LoggerState :=
  match lv with
  | .lvLog => Logger.log st envNow now nowIso message params
  | .lvError => Logger.error st envNow now nowIso message params
  | .lvWarn => Logger.warn st envNow now nowIso message params
  | .lvDebug => Logger.debug st envNow now nowIso message params
  | .lvVerbose => Logger.verbose st envNow now nowIso message params
  | .lvFatal => Logger.fatal st envNow now nowIso message params
  | .lvInfo => Logger.info st envNow now nowIso message params

theorem redactL_eq_map (keys : List String) (xs : List JsVal) :
    redactL keys xs = xs.map (redactV keys) := by
  induction xs with
  | nil => simp [redactL]
  | cons x xs ih => simp [redactL, ih]

theorem redactE_eq_map (keys : List String) (es : List (String × JsVal)) :
    redactE keys es = es.map
      (fun e => (e.1, if shouldRedact keys e.1 then .vstr "[REDACTED]" else redactV keys e.2)) := by
  induction es with
  | nil => simp [redactE]
  | cons e es ih => obtain ⟨k, v⟩ := e; simp [redactE, ih]

mutual
theorem redactV_idem (keys : List String) :
    ∀ v, redactV keys (redactV keys v) = redactV keys v
  | .vstr _ => rfl
  | .vnum _ => rfl
  | .vbool _ => rfl
  | .vnull => rfl
  | .vundefined => rfl
  | .varr xs => by rw [redactV, redactV, redactL_idem keys xs]
  | .vobj es => by rw [redactV, redactV, redactE_idem keys es]
  | .verr n m st c en => by rw [redactV, redactV, redactE_idem keys en]

theorem redactL_idem (keys : List String) :
    ∀ xs, redactL keys (redactL keys xs) = redactL keys xs
  | [] => rfl
  | x :: xs => by rw [redactL, redactL, redactV_idem keys x, redactL_idem keys xs]

theorem redactE_idem (keys : List String) :
    ∀ es, redactE keys (redactE keys es) = redactE keys es
  | [] => rfl
  | (k, v) :: es => by
      rw [redactE, redactE, redactE_idem keys es]
      by_cases h : shouldRedact keys k
      · simp [h, redactV]
      · simp [h, redactV_idem keys v]
end

theorem jsonRoundObj_cons (k : String) (v : JsVal) (es : List (String × JsVal)) :
    jsonRoundObj ((k, v) :: es) =
      if isUndefined v then jsonRoundObj es else (k, jsonRound v) :: jsonRoundObj es := by
  cases v <;> simp [jsonRoundObj, isUndefined]

theorem mem_objKeys_iff (es : List (String × JsVal)) (k : String) :
    k ∈ objKeys es ↔ ∃ v, (k, v) ∈ es := by
  simp only [objKeys, List.mem_map]
  constructor
  · rintro ⟨⟨k', v⟩, hmem, rfl⟩; exact ⟨v, hmem⟩
  · rintro ⟨v, hmem⟩; exact ⟨(k, v), hmem, rfl⟩

theorem objKeys_jsonRoundObj (es : List (String × JsVal)) :
    objKeys (jsonRoundObj es) = (es.filter (fun e => !isUndefined e.2)).map (fun e => e.1) := by
  induction es with
  | nil => simp [jsonRoundObj, objKeys]
  | cons e es ih =>
    obtain ⟨k, v⟩ := e
    rw [jsonRoundObj_cons]
    simp only [objKeys] at ih ⊢
    by_cases h : isUndefined v = true
    · simp [h, ih, List.filter_cons]
    · simp [h, ih, List.filter_cons]

theorem mem_objKeys_jsonRoundObj (es : List (String × JsVal)) (k : String) :
    k ∈ objKeys (jsonRoundObj es) ↔ ∃ v, (k, v) ∈ es ∧ isUndefined v = false := by
  rw [objKeys_jsonRoundObj]
  simp only [List.mem_map, List.mem_filter, Bool.not_eq_true']
  constructor
  · rintro ⟨⟨k₀, v⟩, ⟨hmem, hu⟩, rfl⟩; exact ⟨v, hmem, hu⟩
  · rintro ⟨v, hmem, hu⟩; exact ⟨(k, v), ⟨hmem, hu⟩, rfl⟩

theorem getKey_jsonRoundObj (es : List (String × JsVal)) (k : String) (v : JsVal)
    (h : getKey es k = some v) (hv : isUndefined v = false) :
    getKey (jsonRoundObj es) k = some (jsonRound v) := by
  induction es with
  | nil => simp [getKey] at h
  | cons e es ih =>
    obtain ⟨k₀, v₀⟩ := e
    rw [jsonRoundObj_cons]
    by_cases hk : k₀ = k
    · subst hk
      rw [getKey, if_pos rfl] at h
      cases h
      rw [if_neg (by simp [hv]), getKey, if_pos rfl]
    · rw [getKey, if_neg hk] at h
      by_cases hu : isUndefined v₀ = true
      · rw [if_pos hu]; exact ih h
      · rw [if_neg hu, getKey, if_neg hk]; exact ih h

theorem hasKey_iff_mem (es : List (String × JsVal)) (k : String) :
    hasKey es k = true ↔ k ∈ objKeys es := by
  induction es with
  | nil => simp [hasKey, objKeys]
  | cons e es ih =>
    obtain ⟨k₀, v₀⟩ := e
    rw [hasKey]
    simp only [objKeys, List.map_cons, List.mem_cons, Bool.or_eq_true, decide_eq_true_eq]
    constructor
    · rintro (h | h)
      · exact Or.inl h.symm
      · exact Or.inr (by simpa [objKeys] using ih.mp h)
    · rintro (h | h)
      · exact Or.inl h.symm
      · exact Or.inr (ih.mpr (by simpa [objKeys] using h))

theorem objKeys_replace (es : List (String × JsVal)) (k : String) (v : JsVal) :
    objKeys (es.map (fun e => if e.1 = k then (k, v) else e)) = objKeys es := by
  induction es with
  | nil => rfl
  | cons e es ih =>
    obtain ⟨k₀, v₀⟩ := e
    rw [List.map_cons]
    by_cases hk : k₀ = k
    · subst hk
      rw [if_pos rfl]
      simp only [objKeys, List.map_cons] at ih ⊢
      rw [ih]
    · rw [if_neg hk]
      simp only [objKeys, List.map_cons] at ih ⊢
      rw [ih]

theorem objKeys_setKey (es : List (String × JsVal)) (k : String) (v : JsVal) :
    objKeys (setKey es k v) = if k ∈ objKeys es then objKeys es else objKeys es ++ [k] := by
  rw [setKey]
  by_cases h : hasKey es k = true
  · rw [if_pos h, if_pos ((hasKey_iff_mem es k).mp h), objKeys_replace]
  · rw [if_neg h, if_neg (fun hm => h ((hasKey_iff_mem es k).mpr hm))]
    simp [objKeys]

theorem getKey_replace_self (es : List (String × JsVal)) (k : String) (v : JsVal)
    (h : hasKey es k = true) :
    getKey (es.map (fun e => if e.1 = k then (k, v) else e)) k = some v := by
  induction es with
  | nil => simp [hasKey] at h
  | cons e es ih =>
    obtain ⟨k₀, v₀⟩ := e
    rw [List.map_cons]
    by_cases hk : k₀ = k
    · subst hk
      rw [if_pos rfl, getKey, if_pos rfl]
    · have h' : hasKey es k = true := by simpa [hasKey, hk] using h
      rw [if_neg hk, getKey, if_neg hk]
      exact ih h'

theorem getKey_replace_ne (es : List (String × JsVal)) (k k' : String) (v : JsVal)
    (h : k' ≠ k) :
    getKey (es.map (fun e => if e.1 = k then (k, v) else e)) k' = getKey es k' := by
  induction es with
  | nil => rfl
  | cons e es ih =>
    obtain ⟨k₀, v₀⟩ := e
    rw [List.map_cons]
    by_cases hk : k₀ = k
    · subst hk
      have h2 : ¬(k₀ = k') := fun hh => h (hh ▸ rfl)
      rw [if_pos rfl, getKey, if_neg h2, getKey, if_neg h2]
      exact ih
    · rw [if_neg hk]
      by_cases hk' : k₀ = k'
      · subst hk'
        rw [getKey, if_pos rfl, getKey, if_pos rfl]
      · rw [getKey, if_neg hk', getKey, if_neg hk']
        exact ih

theorem getKey_append_single (es : List (String × JsVal)) (k k' : String) (v : JsVal) :
    getKey (es ++ [(k, v)]) k' =
      match getKey es k' with
      | some w => some w
      | none => if k = k' then some v else none := by
  induction es with
  | nil => simp [getKey]
  | cons e es ih =>
    obtain ⟨k₀, v₀⟩ := e
    by_cases hk : k₀ = k'
    · simp [getKey, hk]
    · simpa [getKey, hk] using ih

theorem mem_of_getKey_eq_some (es : List (String × JsVal)) (k : String) (v : JsVal)
    (h : getKey es k = some v) : (k, v) ∈ es := by
  induction es with
  | nil => simp [getKey] at h
  | cons e es ih =>
    obtain ⟨k₀, v₀⟩ := e
    by_cases hk : k₀ = k
    · subst hk
      rw [getKey, if_pos rfl] at h
      cases h
      exact .head _
    · rw [getKey, if_neg hk] at h
      exact .tail _ (ih h)

theorem getKey_setKey_self (es : List (String × JsVal)) (k : String) (v : JsVal) :
    getKey (setKey es k v) k = some v := by
  rw [setKey]
  by_cases h : hasKey es k = true
  · rw [if_pos h]
    exact getKey_replace_self es k v h
  · rw [if_neg h, getKey_append_single]
    have hnone : getKey es k = none := by
      cases hg : getKey es k with
      | none => rfl
      | some w =>
        exact absurd ((hasKey_iff_mem es k).mpr
          ((mem_objKeys_iff es k).mpr ⟨w, mem_of_getKey_eq_some es k w hg⟩)) h
    rw [hnone]
    simp

theorem getKey_setKey_ne (es : List (String × JsVal)) (k k' : String) (v : JsVal)
    (h : k' ≠ k) : getKey (setKey es k v) k' = getKey es k' := by
  rw [setKey]
  by_cases ha : hasKey es k = true
  · rw [if_pos ha]
    exact getKey_replace_ne es k k' v h
  · rw [if_neg ha, getKey_append_single]
    cases hg : getKey es k' with
    | some w => rfl
    | none => exact if_neg (fun hh : k = k' => h hh.symm)

theorem nodup_objKeys_setKey (es : List (String × JsVal)) (k : String) (v : JsVal)
    (h : (objKeys es).Nodup) : (objKeys (setKey es k v)).Nodup := by
  rw [objKeys_setKey]
  by_cases hm : k ∈ objKeys es
  · rwa [if_pos hm]
  · rw [if_neg hm]
    simpa using List.Nodup.append h (List.nodup_singleton k) (by simpa using hm)

theorem getKey_eq_some_of_mem (es : List (String × JsVal)) (k : String) (v : JsVal)
    (hnd : (objKeys es).Nodup) (hmem : (k, v) ∈ es) : getKey es k = some v := by
  induction es with
  | nil => cases hmem
  | cons e es ih =>
    obtain ⟨k₀, v₀⟩ := e
    simp only [objKeys, List.map_cons, List.nodup_cons] at hnd
    rcases List.mem_cons.mp hmem with heq | htail
    · cases heq
      simp [getKey]
    · have hk : k₀ ≠ k := by
        rintro rfl
        exact hnd.1 ((mem_objKeys_iff es k₀).mpr ⟨v, htail⟩)
      rw [getKey, if_neg hk]
      exact ih hnd.2 htail

theorem splitLinesGo_ne_nil (cs acc : List Char) : splitLinesGo cs acc ≠ [] := by
  induction cs generalizing acc with
  | nil => simp [splitLinesGo]
  | cons c cs ih =>
    rw [splitLinesGo]
    by_cases h : c = '\n'
    · simp [h]
    · simpa [h] using ih (c :: acc)

theorem splitLines_ne_nil (s : String) : splitLines s ≠ [] :=
  splitLinesGo_ne_nil s.data []

theorem getKey_formatToJson_entries (st : LoggerState) (envNow : Option String) (now : Int)
    (nowIso level : String) (message : JsVal) (params : List JsVal) (k : String)
    (hk1 : k ≠ "tags") (hk2 : k ≠ "timestampDiff") :
    getKey (formatToJson st envNow now nowIso level message params).1 k =
      getKey (setKey (setKey (setKey (setKey (setKey st.additionalFields
        "timestamp" (.vstr nowIso)) "service" (.vstr (serviceName envNow)))
        "level" (.vstr level)) "context" (jsOfCtx st.context))
        "data" (format st.config.redactKeys message)) k := by
  rw [formatToJson]
  by_cases hts : st.config.timestamp <;>
    by_cases htags : (st.ctxParams.length > 0 ∨ params.length > 0) <;>
      simp [hts, htags, Logger.getTimestampDiff, getKey_setKey_ne _ _ _ _ hk1,
        getKey_setKey_ne _ _ _ _ hk2]

theorem formatToJson_snd (st : LoggerState) (envNow : Option String) (now : Int)
    (nowIso level : String) (message : JsVal) (params : List JsVal) :
    (formatToJson st envNow now nowIso level message params).2 =
      if st.config.timestamp then { st with timestamp := now } else st := by
  rw [formatToJson]
  by_cases hts : st.config.timestamp <;> simp [hts, Logger.getTimestampDiff]

theorem getKey_formatToJson_timestampDiff (st : LoggerState) (envNow : Option String)
    (now : Int) (nowIso level : String) (message : JsVal) (params : List JsVal)
    (hts : st.config.timestamp = true) :
    getKey (formatToJson st envNow now nowIso level message params).1 "timestampDiff" =
      some (.vnum (if st.timestamp > 0 then now - st.timestamp else 0)) := by
  rw [formatToJson]
  simp [hts, Logger.getTimestampDiff, getKey_setKey_self]

theorem getKey_fjson_timestamp (st : LoggerState) (envNow : Option String) (now : Int)
    (nowIso level : String) (message : JsVal) (params : List JsVal) :
    getKey (formatToJson st envNow now nowIso level message params).1 "timestamp" =
      some (.vstr nowIso) := by
  rw [getKey_formatToJson_entries st envNow now nowIso level message params "timestamp"
    (by decide) (by decide), getKey_setKey_ne _ _ _ _ (by decide),
    getKey_setKey_ne _ _ _ _ (by decide), getKey_setKey_ne _ _ _ _ (by decide),
    getKey_setKey_ne _ _ _ _ (by decide), getKey_setKey_self]

theorem getKey_fjson_service (st : LoggerState) (envNow : Option String) (now : Int)
    (nowIso level : String) (message : JsVal) (params : List JsVal) :
    getKey (formatToJson st envNow now nowIso level message params).1 "service" =
      some (.vstr (serviceName envNow)) := by
  rw [getKey_formatToJson_entries st envNow now nowIso level message params "service"
    (by decide) (by decide), getKey_setKey_ne _ _ _ _ (by decide),
    getKey_setKey_ne _ _ _ _ (by decide), getKey_setKey_ne _ _ _ _ (by decide),
    getKey_setKey_self]

theorem getKey_fjson_level (st : LoggerState) (envNow : Option String) (now : Int)
    (nowIso level : String) (message : JsVal) (params : List JsVal) :
    getKey (formatToJson st envNow now nowIso level message params).1 "level" =
      some (.vstr level) := by
  rw [getKey_formatToJson_entries st envNow now nowIso level message params "level"
    (by decide) (by decide), getKey_setKey_ne _ _ _ _ (by decide),
    getKey_setKey_ne _ _ _ _ (by decide), getKey_setKey_self]

theorem getKey_fjson_context (st : LoggerState) (envNow : Option String) (now : Int)
    (nowIso level : String) (message : JsVal) (params : List JsVal) :
    getKey (formatToJson st envNow now nowIso level message params).1 "context" =
      some (jsOfCtx st.context) := by
  rw [getKey_formatToJson_entries st envNow now nowIso level message params "context"
    (by decide) (by decide), getKey_setKey_ne _ _ _ _ (by decide), getKey_setKey_self]

theorem getKey_fjson_data (st : LoggerState) (envNow : Option String) (now : Int)
    (nowIso level : String) (message : JsVal) (params : List JsVal) :
    getKey (formatToJson st envNow now nowIso level message params).1 "data" =
      some (format st.config.redactKeys message) := by
  rw [getKey_formatToJson_entries st envNow now nowIso level message params "data"
    (by decide) (by decide), getKey_setKey_self]

theorem getKey_fjson_tags (st : LoggerState) (envNow : Option String) (now : Int)
    (nowIso level : String) (message : JsVal) (params : List JsVal)
    (hc : st.ctxParams.length > 0 ∨ params.length > 0) :
    getKey (formatToJson st envNow now nowIso level message params).1 "tags" =
      some (.varr (st.ctxParams.map .vstr ++ params)) := by
  rw [formatToJson]
  by_cases hts : st.config.timestamp <;>
    simp [hts, hc, Logger.getTimestampDiff,
      getKey_setKey_ne _ "timestampDiff" "tags" _ (by decide), getKey_setKey_self]

theorem getKey_fjson_tags_empty (st : LoggerState) (envNow : Option String) (now : Int)
    (nowIso level : String) (message : JsVal) (params : List JsVal)
    (hc : ¬(st.ctxParams.length > 0 ∨ params.length > 0)) :
    getKey (formatToJson st envNow now nowIso level message params).1 "tags" =
      getKey st.additionalFields "tags" := by
  rw [formatToJson]
  by_cases hts : st.config.timestamp <;>
    simp [hts, hc, Logger.getTimestampDiff,
      getKey_setKey_ne _ "timestampDiff" "tags" _ (by decide),
      getKey_setKey_ne _ "data" "tags" _ (by decide),
      getKey_setKey_ne _ "context" "tags" _ (by decide),
      getKey_setKey_ne _ "level" "tags" _ (by decide),
      getKey_setKey_ne _ "service" "tags" _ (by decide),
      getKey_setKey_ne _ "timestamp" "tags" _ (by decide)]

theorem getKey_fjson_tsdiff_off (st : LoggerState) (envNow : Option String) (now : Int)
    (nowIso level : String) (message : JsVal) (params : List JsVal)
    (hts : st.config.timestamp = false) :
    getKey (formatToJson st envNow now nowIso level message params).1 "timestampDiff" =
      getKey st.additionalFields "timestampDiff" := by
  rw [formatToJson]
  by_cases hc : st.ctxParams.length > 0 ∨ params.length > 0 <;>
    simp [hts, hc,
      getKey_setKey_ne _ "tags" "timestampDiff" _ (by decide),
      getKey_setKey_ne _ "data" "timestampDiff" _ (by decide),
      getKey_setKey_ne _ "context" "timestampDiff" _ (by decide),
      getKey_setKey_ne _ "level" "timestampDiff" _ (by decide),
      getKey_setKey_ne _ "service" "timestampDiff" _ (by decide),
      getKey_setKey_ne _ "timestamp" "timestampDiff" _ (by decide)]

theorem getKey_fjson_other (st : LoggerState) (envNow : Option String) (now : Int)
    (nowIso level : String) (message : JsVal) (params : List JsVal) (k : String)
    (h1 : k ≠ "timestamp") (h2 : k ≠ "service") (h3 : k ≠ "level") (h4 : k ≠ "context")
    (h5 : k ≠ "data") (h6 : k ≠ "tags") (h7 : k ≠ "timestampDiff") :
    getKey (formatToJson st envNow now nowIso level message params).1 k =
      getKey st.additionalFields k := by
  rw [getKey_formatToJson_entries st envNow now nowIso level message params k h6 h7,
    getKey_setKey_ne _ _ _ _ h5, getKey_setKey_ne _ _ _ _ h4, getKey_setKey_ne _ _ _ _ h3,
    getKey_setKey_ne _ _ _ _ h2, getKey_setKey_ne _ _ _ _ h1]

theorem format_isUndefined (keys : List String) (message : JsVal) :
    isUndefined (format keys message) = false := by
  cases message <;> simp [format, redactV, isUndefined]

theorem nodup_objKeys_formatToJson (st : LoggerState) (envNow : Option String) (now : Int)
    (nowIso level : String) (message : JsVal) (params : List JsVal)
    (hnd : (objKeys st.additionalFields).Nodup) :
    (objKeys (formatToJson st envNow now nowIso level message params).1).Nodup := by
  rw [formatToJson]
  by_cases hts : st.config.timestamp <;>
    by_cases hc : st.ctxParams.length > 0 ∨ params.length > 0 <;>
      simp only [hts, hc, Logger.getTimestampDiff, if_true, if_false, ite_true, ite_false,
        eq_self_iff_true, not_true, not_false_iff, Bool.false_eq_true, if_pos, if_neg] <;>
      (repeat' apply nodup_objKeys_setKey) <;>
      exact hnd

/-- C1: for every level name not in the active-levels set, the level's
public logging entry point performs zero writes to any sink and returns
the state unchanged — in particular `lastTimestampMs` is untouched —
even when `timestampEnabled` is true. -/
theorem claim_C1_inactive_level_no_write_no_tick (lv : LevelName) (st : LoggerState)
    (envNow : Option String) (now : Int) (nowIso : String) (message : JsVal)
    (params : List JsVal) (h : st.logLevels.contains (levelKey lv) = false) :
    entryPoint lv st envNow now nowIso message params = ([], st) := by
  cases lv <;>
    simp_all [entryPoint, levelKey, Logger.log, Logger.error, Logger.warn, Logger.debug,
      Logger.verbose, Logger.fatal, Logger.info]

/-- Witness for C1: a concrete logger with only `log` active and
timestamping enabled rejects `error` without writing or ticking. -/
theorem claim_C1_witness :
    ((["log"] : List String).contains "error" = false) ∧
    entryPoint .lvError
      { context := some "App",
        config := { id := some "Svc", jsonFormat := false, prettyPrintJson := false,
                    timestamp := true, redactKeys := [] },
        timestamp := 7, ctxParams := [], additionalFields := [], redactKeys := [],
        logLevels := ["log"] } none 99 "ISO" (.vstr "m") [] =
      ([], { context := some "App",
             config := { id := some "Svc", jsonFormat := false, prettyPrintJson := false,
                         timestamp := true, redactKeys := [] },
             timestamp := 7, ctxParams := [], additionalFields := [], redactKeys := [],
             logLevels := ["log"] }) :=
  ⟨by decide,
   claim_C1_inactive_level_no_write_no_tick .lvError _ none 99 "ISO" (.vstr "m") [] (by decide)⟩

/-- C2: the redaction engine returns primitives unchanged, maps lists
element-wise preserving order, and rebuilds mappings key-by-key: a key
whose lowercased form equals that of some configured redact key has its
value replaced by exactly the literal `"[REDACTED]"` without recursion,
while every other value is recursed into. -/
theorem claim_C2_redact_characterisation (keys : List String) :
    (∀ s, redactV keys (.vstr s) = .vstr s) ∧
    (∀ n, redactV keys (.vnum n) = .vnum n) ∧
    (∀ b, redactV keys (.vbool b) = .vbool b) ∧
    redactV keys .vnull = .vnull ∧
    redactV keys .vundefined = .vundefined ∧
    (∀ xs, redactV keys (.varr xs) = .varr (xs.map (redactV keys))) ∧
    (∀ es, redactV keys (.vobj es) = .vobj (es.map (fun e =>
      (e.1, if shouldRedact keys e.1 then .vstr "[REDACTED]" else redactV keys e.2)))) ∧
    (∀ k, shouldRedact keys k = true ↔ ∃ rk ∈ keys, toLowerAscii k = toLowerAscii rk) := by
  refine ⟨fun s => rfl, fun n => rfl, fun b => rfl, rfl, rfl, ?_, ?_, ?_⟩
  · intro xs
    rw [redactV, redactL_eq_map]
  · intro es
    rw [redactV, redactE_eq_map]
  · intro k
    simp [shouldRedact, List.any_eq_true]

/-- C8: redaction is idempotent — redacting an already-redacted value
yields the same value, for every redact-key set. -/
theorem claim_C8_redact_idempotent (keys : List String) (v : JsVal) :
    redactV keys (redactV keys v) = redactV keys v :=
  redactV_idem keys v

/-- C9 counterexample: an Error passed as an optional parameter is
handed to the redaction engine itself — the engine rebuilds it from its
enumerable own properties, even redacting inside — rather than being
left alone or reduced to the name/message/stack projection, contrary to
the claim. -/
theorem claim_C9_counterexample :
    processParams ["password"]
        [.verr "Error" "x" (some "Error: x") none [("password", .vstr "s")]] =
      [.vobj [("password", .vstr "[REDACTED]")]] ∧
    JsVal.vobj [("password", .vstr "[REDACTED]")] ≠
      JsVal.verr "Error" "x" (some "Error: x") none [("password", .vstr "s")] ∧
    JsVal.vobj [("password", .vstr "[REDACTED]")] ≠
      JsVal.vobj (formatError "Error" "x" (some "Error: x") none) := by
  refine ⟨?_, ?_, ?_⟩
  · simp +decide [processParams, isObjectNonNull, redactV, redactE, shouldRedact, toLowerAscii]
  · intro h
    exact JsVal.noConfusion h
  · simp +decide [formatError, jsTruthy]

/-- C9 (amended): strings are never handed to the redaction engine —
a string message becomes `{ message: <itself> }` and a string (or any
non-object) parameter passes through untouched; an error passed as the
message is reduced to its name/message/stack(+cause) projection without
redaction; but an error passed as an optional parameter is handed
directly to the redaction engine, which rebuilds it from its enumerable
own properties. -/
theorem claim_C9_amended_redaction_targets (keys : List String) :
    (∀ s, format keys (.vstr s) = .vobj [("message", .vstr s)]) ∧
    (∀ n m stack cause en, format keys (.verr n m stack cause en) =
        .vobj (formatError n m stack cause)) ∧
    (∀ ps, processParams keys ps =
        ps.map (fun p => if isObjectNonNull p then redactV keys p else p)) ∧
    (∀ s, isObjectNonNull (.vstr s) = false) ∧
    (∀ n m stack cause en, isObjectNonNull (.verr n m stack cause en) = true) ∧
    (∀ n m stack cause en, redactV keys (.verr n m stack cause en) = .vobj (redactE keys en)) := by
  refine ⟨fun s => ?_, fun n m stack cause en => rfl, fun ps => rfl, fun s => rfl,
    fun n m stack cause en => rfl, fun n m stack cause en => ?_⟩
  · simp [format, jsToString]
  · rw [redactV]

/-- C6 counterexample: an error that carries the cause `false` — the
claim says an error carrying a cause of any value yields a `cause`
key — produces record data whose error object has no `cause` entry,
because the source gates the key on the cause's truthiness. -/
theorem claim_C6_counterexample :
    format [] (.verr "Error" "boom" (some "Error: boom") (some (.vbool false)) []) =
      .vobj [("error", .vobj [("name", .vstr "Error"), ("message", .vstr "boom"),
        ("stack", .varr ((splitLines "Error: boom").map .vstr))])] ∧
    getKey [("name", .vstr "Error"), ("message", .vstr "boom"),
        ("stack", .varr ((splitLines "Error: boom").map .vstr))] "cause" = none := by
  constructor
  · simp [format, formatError, jsTruthy]
  · rfl

/-- C6 (amended): for every error-like message logged in structured
format, the record's `data` is
`{ error: { name, message, stack: the stack split into lines, cause } }`
where the `cause` entry is present exactly when the error carries a
truthy cause; the split stack is always a non-empty ordered sequence of
lines, and `data.error.message` is the error's own message string. -/
theorem claim_C6_amended_error_data (keys : List String) (n m s : String)
    (cause : Option JsVal) (en : List (String × JsVal)) (st : LoggerState)
    (envNow : Option String) (now : Int) (nowIso level : String) (params : List JsVal) :
    format keys (.verr n m (some s) cause en) =
      .vobj [("error", .vobj ([("name", .vstr n), ("message", .vstr m),
        ("stack", .varr ((splitLines s).map .vstr))] ++
        (if jsTruthy (cause.getD .vundefined) then [("cause", cause.getD .vundefined)] else [])))] ∧
    splitLines s ≠ [] ∧
    getKey (formatToJson st envNow now nowIso level (.verr n m (some s) cause en) params).1
      "data" = some (format st.config.redactKeys (.verr n m (some s) cause en)) := by
  refine ⟨?_, splitLines_ne_nil s, ?_⟩
  · simp [format, formatError]
  · rw [getKey_formatToJson_entries st envNow now nowIso level _ params "data"
      (by decide) (by decide), getKey_setKey_self]

/-- C4: the `service` field of every structured record is recomputed
from the environment at the moment of the log call — it equals the
call-time `SERVICE_NAME || 'Nest'` reading and ignores the `id` fixed
in the configuration at construction, so constructing with
`id: 'MyService'` and logging while the environment says `B` emits
`service: "B"`. -/
theorem claim_C4_service_env_reread :
    (∀ (st : LoggerState) (envNow : Option String) (now : Int) (nowIso level : String)
        (message : JsVal) (params : List JsVal),
      getKey (formatToJson st envNow now nowIso level message params).1 "service" =
        some (.vstr (serviceName envNow))) ∧
    (Logger.mkLogger (some "A") none none {} { id := some "MyService" }).config.id =
      some "MyService" ∧
    getKey (formatToJson (Logger.mkLogger (some "A") none none {} { id := some "MyService" })
        (some "B") 0 "ISO" "LOG" .vnull []).1 "service" = some (.vstr "B") := by
  have hgen : ∀ (st : LoggerState) (envNow : Option String) (now : Int)
      (nowIso level : String) (message : JsVal) (params : List JsVal),
      getKey (formatToJson st envNow now nowIso level message params).1 "service" =
        some (.vstr (serviceName envNow)) := by
    intro st envNow now nowIso level message params
    rw [getKey_formatToJson_entries st envNow now nowIso level message params "service"
        (by decide) (by decide),
      getKey_setKey_ne _ _ _ _ (by decide),
      getKey_setKey_ne _ _ _ _ (by decide),
      getKey_setKey_ne _ _ _ _ (by decide),
      getKey_setKey_self]
  refine ⟨hgen, ?_, ?_⟩
  · simp +decide [Logger.mkLogger, Logger.setOptions, Logger.setRedactKeys,
      Logger.setLogLevels, applyOpts, mergeOpts, defaultOptions, serviceName,
      setOfList, setAddStr]
  · rw [hgen]
    simp +decide [serviceName]

/-- C3: the redact-key mutators are disconnected from the engine — at
the concrete failing input, a logger built with default options, after
`addRedactKey('password')`, reports `['password']` from
`getRedactKeys` while `config.redactKeys` (the set the engine actually
consults) stays empty, so logging `{password: 'secret'}` emits the
secret unredacted even though the tracked key set would have redacted
it. -/
theorem claim_C3_redact_key_mutators_ignored :
    Logger.getRedactKeys (Logger.addRedactKey (Logger.mkLogger none (some "App") none {}
      { jsonFormat := some true, logLevels := some ["log"] }) "password") = ["password"] ∧
    (Logger.addRedactKey (Logger.mkLogger none (some "App") none {}
      { jsonFormat := some true, logLevels := some ["log"] }) "password").config.redactKeys
      = [] ∧
    (Logger.log (Logger.addRedactKey (Logger.mkLogger none (some "App") none {}
        { jsonFormat := some true, logLevels := some ["log"] }) "password")
      none 5 "ISO" (.vobj [("password", .vstr "secret")]) []).1 =
      [⟨.stdout, [.jsonRecord [("timestamp", .vstr "ISO"), ("service", .vstr "Nest"),
        ("level", .vstr "LOG"), ("context", .vstr "App"),
        ("data", .vobj [("password", .vstr "secret")])] false]⟩] ∧
    redactV ["password"] (.vobj [("password", .vstr "secret")]) =
      .vobj [("password", .vstr "[REDACTED]")] := by
  refine ⟨?_, ?_, ?_, ?_⟩ <;>
    simp +decide [Logger.mkLogger, Logger.setOptions, Logger.setRedactKeys,
      Logger.setLogLevels, Logger.addRedactKey, Logger.getRedactKeys, applyOpts, mergeOpts,
      defaultOptions, setOfList, setAddStr, setDelStr, Logger.log, logMessage, processParams,
      formatToJson, format, redactV, redactE, shouldRedact, toLowerAscii, setKey, hasKey,
      serviceName, jsOfCtx, isObjectNonNull]

/-- C7: the timestamp-diff tracker returns 0 and records the current
wall clock on the first tick after construction or `resetTimestamp()`,
and on each later tick returns `now - lastTimestampMs` and re-records;
hence after a reset the next structured record with timestamping
enabled reports `timestampDiff = 0`, and a second record emitted at
least `diffLB` ms later reports a diff `≥ diffLB`. -/
theorem claim_C7_timestamp_diff_sequencing (st : LoggerState) (now1 now2 diffLB : Int)
    (env1 env2 : Option String) (iso1 iso2 lvl1 lvl2 : String) (msg1 msg2 : JsVal)
    (ps1 ps2 : List JsVal) (hts : st.config.timestamp = true) (h1 : 0 < now1)
    (h2 : now1 + diffLB ≤ now2) :
    (∀ s : LoggerState, s.timestamp = 0 →
      Logger.getTimestampDiff s now1 = (0, { s with timestamp := now1 })) ∧
    (∀ s : LoggerState, 0 < s.timestamp →
      Logger.getTimestampDiff s now2 = (now2 - s.timestamp, { s with timestamp := now2 })) ∧
    (Logger.resetTimestamp st).timestamp = 0 ∧
    getKey (decodedRecord (formatToJson (Logger.resetTimestamp st) env1 now1 iso1 lvl1
      msg1 ps1).1) "timestampDiff" = some (.vnum 0) ∧
    (formatToJson (Logger.resetTimestamp st) env1 now1 iso1 lvl1 msg1 ps1).2.timestamp
      = now1 ∧
    getKey (decodedRecord (formatToJson (formatToJson (Logger.resetTimestamp st) env1 now1
      iso1 lvl1 msg1 ps1).2 env2 now2 iso2 lvl2 msg2 ps2).1) "timestampDiff" =
      some (.vnum (now2 - now1)) ∧
    diffLB ≤ now2 - now1 := by
  have hcfg : (Logger.resetTimestamp st).config = st.config := rfl
  have hsnd := formatToJson_snd (Logger.resetTimestamp st) env1 now1 iso1 lvl1 msg1 ps1
  rw [hcfg, hts] at hsnd
  simp only [if_true] at hsnd
  refine ⟨?_, ?_, rfl, ?_, ?_, ?_, ?_⟩
  · intro s h
    rw [Logger.getTimestampDiff, h]
    norm_num
  · intro s h
    rw [Logger.getTimestampDiff, if_pos h]
  · have h0 := getKey_formatToJson_timestampDiff (Logger.resetTimestamp st) env1 now1 iso1
      lvl1 msg1 ps1 (by rw [hcfg, hts])
    norm_num [Logger.resetTimestamp] at h0
    rw [decodedRecord]
    simpa [jsonRound] using getKey_jsonRoundObj _ "timestampDiff" _ h0 rfl
  · rw [hsnd]
  · rw [hsnd]
    have hts2 : ({ Logger.resetTimestamp st with timestamp := now1 }
        : LoggerState).config.timestamp = true := hts
    have h3 := getKey_formatToJson_timestampDiff
      { Logger.resetTimestamp st with timestamp := now1 } env2 now2 iso2 lvl2 msg2 ps2 hts2
    simp only [show ({ Logger.resetTimestamp st with timestamp := now1 }
      : LoggerState).timestamp = now1 from rfl] at h3
    rw [if_pos h1] at h3
    rw [decodedRecord]
    simpa [jsonRound] using getKey_jsonRoundObj _ "timestampDiff" _ h3 rfl
  · omega

/-- Witness for C7: a concrete logger with timestamping, clock readings
5 then 12, and gap bound 3. -/
theorem claim_C7_witness :
    ({ context := some "App",
       config := { id := some "Svc", jsonFormat := true, prettyPrintJson := false,
                   timestamp := true, redactKeys := [] },
       timestamp := 41, ctxParams := [], additionalFields := [], redactKeys := [],
       logLevels := ["log"] } : LoggerState).config.timestamp = true ∧
    (0 : Int) < 5 ∧ (5 : Int) + 3 ≤ 12 ∧
    getKey (decodedRecord (formatToJson (Logger.resetTimestamp
      { context := some "App",
        config := { id := some "Svc", jsonFormat := true, prettyPrintJson := false,
                    timestamp := true, redactKeys := [] },
        timestamp := 41, ctxParams := [], additionalFields := [], redactKeys := [],
        logLevels := ["log"] }) none 5 "I1" "LOG" (.vstr "a") []).1) "timestampDiff" =
      some (.vnum 0) ∧
    getKey (decodedRecord (formatToJson (formatToJson (Logger.resetTimestamp
      { context := some "App",
        config := { id := some "Svc", jsonFormat := true, prettyPrintJson := false,
                    timestamp := true, redactKeys := [] },
        timestamp := 41, ctxParams := [], additionalFields := [], redactKeys := [],
        logLevels := ["log"] }) none 5 "I1" "LOG" (.vstr "a") []).2
      none 12 "I2" "LOG" (.vstr "b") []).1) "timestampDiff" = some (.vnum (12 - 5)) := by
  have h := claim_C7_timestamp_diff_sequencing
    { context := some "App",
      config := { id := some "Svc", jsonFormat := true, prettyPrintJson := false,
                  timestamp := true, redactKeys := [] },
      timestamp := 41, ctxParams := [], additionalFields := [], redactKeys := [],
      logLevels := ["log"] } 5 12 3 none none "I1" "I2" "LOG" "LOG" (.vstr "a") (.vstr "b")
    [] [] rfl (by decide) (by decide)
  exact ⟨rfl, by decide, by decide, h.2.2.2.1, h.2.2.2.2.2.1⟩

/-- C10: the bracket-joined context segment keeps exactly the truthy
entries — empty strings, 0, false, null and undefined are silently
omitted (an empty context contributes no bracket) — and the surviving
entries appear in the order context, then persistent context
parameters, then per-call parameters. -/
theorem claim_C10_ctx_segment_truthy_filter (st : LoggerState) (params : List JsVal) :
    ctxWithParams st params =
      clcYellow (String.join (ctxCoreList st.context st.ctxParams params)) ∧
    (jsTruthy (.vstr "") = false ∧ jsTruthy (.vnum 0) = false ∧
      jsTruthy (.vbool false) = false ∧ jsTruthy .vnull = false ∧
      jsTruthy .vundefined = false) ∧
    (∀ (ctx : Option String) (cps : List String) (pre : List JsVal) (v : JsVal)
      (post : List JsVal), jsTruthy v = false →
      ctxCoreList ctx cps (pre ++ v :: post) = ctxCoreList ctx cps (pre ++ post)) ∧
    (∀ (cps : List String) (ps : List JsVal),
      ctxCoreList (some "") cps ps = ctxCoreList none cps ps) ∧
    (∀ (c : String) (cps : List String) (ps : List JsVal), c.isEmpty = false →
      (∀ s ∈ cps, s.isEmpty = false) → (∀ p ∈ ps, jsTruthy p = true) →
      ctxCoreList (some c) cps ps =
        ("[" ++ c ++ "]") :: (cps.map (fun s => "[" ++ s ++ "]") ++
          ps.map (fun p => "[" ++ jsToString p ++ "]"))) := by
  refine ⟨rfl, ⟨by decide, by decide, by decide, by decide, by decide⟩, ?_, ?_, ?_⟩
  · intro ctx cps pre v post h
    simp [ctxCoreList, List.filter_append, List.filter_cons, h]
  · intro cps ps
    simp +decide [ctxCoreList, jsOfCtx, List.filter_cons, jsTruthy]
  · intro c cps ps h1 h2 h3
    have hcps : (cps.map JsVal.vstr).filter jsTruthy = cps.map JsVal.vstr :=
      List.filter_eq_self.mpr (by
        intro a ha
        obtain ⟨s, hs, rfl⟩ := List.mem_map.mp ha
        simpa [jsTruthy] using h2 s hs)
    have hps : ps.filter jsTruthy = ps := List.filter_eq_self.mpr h3
    simp [ctxCoreList, jsOfCtx, List.filter_cons, jsTruthy, h1, List.filter_append,
      hcps, hps, List.map_append, List.map_map, Function.comp, jsToString]

/-- C5 counterexample: a logger constructed without any context — the
claim says every decoded structured record contains the key `context` —
emits a record whose decoded key set is exactly
`timestamp, service, level, data`, with no `context` key, because
`JSON.stringify` drops the `undefined` context. -/
theorem claim_C5_counterexample :
    objKeys (decodedRecord (formatToJson
      { context := none,
        config := { id := some "Nest", jsonFormat := true, prettyPrintJson := false,
                    timestamp := false, redactKeys := [] },
        timestamp := 0, ctxParams := [], additionalFields := [], redactKeys := [],
        logLevels := ["log"] } none 0 "ISO" "LOG" (.vstr "hello") []).1) =
      ["timestamp", "service", "level", "data"] := by
  simp +decide [formatToJson, decodedRecord, jsonRound, jsonRoundObj, jsonRoundArr, setKey,
    hasKey, objKeys, format, jsOfCtx, serviceName, jsToString, Logger.getTimestampDiff]

/-- C5 (amended): every decoded structured record contains exactly the
keys `timestamp, service, level, data`, plus `context` when the
logger's context is defined, plus `tags` when the tag/context sequence
is non-empty, plus `timestampDiff` when timestamping is enabled, plus
the configured additional-field keys, and no others — assuming the
additional-field values are defined (an `undefined` value, like an
undefined context, is dropped by the JSON encoding); and an additional
field named after a reserved key never shadows the computed value of
that key. -/
theorem claim_C5_amended_record_key_set (st : LoggerState) (envNow : Option String)
    (now : Int) (nowIso level : String) (message : JsVal) (params : List JsVal)
    (hdef : ∀ e ∈ st.additionalFields, isUndefined e.2 = false)
    (hnd : (objKeys st.additionalFields).Nodup) :
    (∀ k, k ∈ objKeys (decodedRecord
        (formatToJson st envNow now nowIso level message params).1) ↔
      (k = "timestamp" ∨ k = "service" ∨ k = "level" ∨ k = "data" ∨
       (k = "context" ∧ st.context.isSome = true) ∨
       (k = "tags" ∧ (st.ctxParams.length > 0 ∨ params.length > 0)) ∨
       (k = "timestampDiff" ∧ st.config.timestamp = true) ∨
       (k ∈ objKeys st.additionalFields ∧ ¬(k = "context" ∧ st.context = none)))) ∧
    getKey (formatToJson st envNow now nowIso level message params).1 "timestamp" =
      some (.vstr nowIso) ∧
    getKey (formatToJson st envNow now nowIso level message params).1 "service" =
      some (.vstr (serviceName envNow)) ∧
    getKey (formatToJson st envNow now nowIso level message params).1 "level" =
      some (.vstr level) ∧
    (∀ c, st.context = some c →
      getKey (formatToJson st envNow now nowIso level message params).1 "context" =
        some (.vstr c)) ∧
    getKey (formatToJson st envNow now nowIso level message params).1 "data" =
      some (format st.config.redactKeys message) ∧
    ((st.ctxParams.length > 0 ∨ params.length > 0) →
      getKey (formatToJson st envNow now nowIso level message params).1 "tags" =
        some (.varr (st.ctxParams.map .vstr ++ params))) ∧
    (st.config.timestamp = true →
      getKey (formatToJson st envNow now nowIso level message params).1 "timestampDiff" =
        some (.vnum (if st.timestamp > 0 then now - st.timestamp else 0))) := by
  have haf : ∀ k : String,
      (∃ v, getKey st.additionalFields k = some v ∧ isUndefined v = false) ↔
        k ∈ objKeys st.additionalFields := by
    intro k
    constructor
    · rintro ⟨v, hg, _⟩
      exact (mem_objKeys_iff _ k).mpr ⟨v, mem_of_getKey_eq_some _ _ _ hg⟩
    · intro hk
      obtain ⟨v, hv⟩ := (mem_objKeys_iff _ k).mp hk
      exact ⟨v, getKey_eq_some_of_mem _ _ _ hnd hv, hdef _ hv⟩
  have hndE := nodup_objKeys_formatToJson st envNow now nowIso level message params hnd
  refine ⟨?_, getKey_fjson_timestamp st envNow now nowIso level message params,
    getKey_fjson_service st envNow now nowIso level message params,
    getKey_fjson_level st envNow now nowIso level message params, ?_,
    getKey_fjson_data st envNow now nowIso level message params, ?_, ?_⟩
  · intro k
    rw [decodedRecord, mem_objKeys_jsonRoundObj]
    have hiff : (∃ v, (k, v) ∈ (formatToJson st envNow now nowIso level message params).1 ∧
        isUndefined v = false) ↔
        (∃ v, getKey (formatToJson st envNow now nowIso level message params).1 k = some v ∧
          isUndefined v = false) := by
      constructor
      · rintro ⟨v, hm, hu⟩
        exact ⟨v, getKey_eq_some_of_mem _ _ _ hndE hm, hu⟩
      · rintro ⟨v, hg, hu⟩
        exact ⟨v, mem_of_getKey_eq_some _ _ _ hg, hu⟩
    rw [hiff]
    by_cases h1 : k = "timestamp"
    · subst h1
      rw [getKey_fjson_timestamp]
      simp [isUndefined]
    by_cases h2 : k = "service"
    · subst h2
      rw [getKey_fjson_service]
      simp [isUndefined]
    by_cases h3 : k = "level"
    · subst h3
      rw [getKey_fjson_level]
      simp [isUndefined]
    by_cases h4 : k = "context"
    · subst h4
      rw [getKey_fjson_context]
      cases hctx : st.context with
      | none => simp +decide [jsOfCtx, isUndefined, hctx, haf]
      | some c => simp +decide [jsOfCtx, isUndefined, hctx]
    by_cases h5 : k = "data"
    · subst h5
      rw [getKey_fjson_data]
      simp +decide [format_isUndefined]
    by_cases h6 : k = "tags"
    · subst h6
      by_cases hc : st.ctxParams.length > 0 ∨ params.length > 0
      · rw [getKey_fjson_tags st envNow now nowIso level message params hc]
        simp +decide [isUndefined, hc]
      · rw [getKey_fjson_tags_empty st envNow now nowIso level message params hc]
        simp +decide [haf, hc]
    by_cases h7 : k = "timestampDiff"
    · subst h7
      by_cases hts : st.config.timestamp = true
      · rw [getKey_formatToJson_timestampDiff st envNow now nowIso level message params hts]
        simp +decide [isUndefined, hts]
      · have hts' : st.config.timestamp = false := by simpa using hts
        rw [getKey_fjson_tsdiff_off st envNow now nowIso level message params hts']
        simp +decide [haf, hts]
    · rw [getKey_fjson_other st envNow now nowIso level message params k h1 h2 h3 h4 h5
        h6 h7]
      simp [haf, h1, h2, h3, h4, h5, h6, h7]
  · intro c hc
    rw [getKey_fjson_context, hc]
    rfl
  · intro hc
    exact getKey_fjson_tags st envNow now nowIso level message params hc
  · intro hts
    exact getKey_formatToJson_timestampDiff st envNow now nowIso level message params hts

/-- Witness for C5 at a concrete logger carrying an additional field
`app`, a context, a context parameter and one call parameter. -/
theorem claim_C5_witness :
    (∀ e ∈ ([("app", JsVal.vstr "x")] : List (String × JsVal)), isUndefined e.2 = false) ∧
    (objKeys ([("app", JsVal.vstr "x")] : List (String × JsVal))).Nodup ∧
    getKey (formatToJson
      { context := some "Ctx",
        config := { id := some "Svc", jsonFormat := true, prettyPrintJson := false,
                    timestamp := true, redactKeys := [] },
        timestamp := 4, ctxParams := ["p"], additionalFields := [("app", JsVal.vstr "x")],
        redactKeys := [], logLevels := ["log"] } none 5 "ISO" "LOG" (.vstr "hi")
      [.vstr "t"]).1 "timestamp" = some (.vstr "ISO") ∧
    "app" ∈ objKeys (decodedRecord (formatToJson
      { context := some "Ctx",
        config := { id := some "Svc", jsonFormat := true, prettyPrintJson := false,
                    timestamp := true, redactKeys := [] },
        timestamp := 4, ctxParams := ["p"], additionalFields := [("app", JsVal.vstr "x")],
        redactKeys := [], logLevels := ["log"] } none 5 "ISO" "LOG" (.vstr "hi")
      [.vstr "t"]).1) := by
  have h := claim_C5_amended_record_key_set
    { context := some "Ctx",
      config := { id := some "Svc", jsonFormat := true, prettyPrintJson := false,
                  timestamp := true, redactKeys := [] },
      timestamp := 4, ctxParams := ["p"], additionalFields := [("app", JsVal.vstr "x")],
      redactKeys := [], logLevels := ["log"] } none 5 "ISO" "LOG" (.vstr "hi") [.vstr "t"]
    (by decide) (by decide)
  exact ⟨by decide, by decide, h.2.1, (h.1 "app").mpr (by simp +decide [objKeys])⟩

/-- Witness for C10: with context `Ctx`, persistent parameter
`env:test` and per-call parameters `["", "tag1"]`, the empty-string
entry is dropped and the rest render in order. -/
theorem claim_C10_witness :
    jsTruthy (.vstr "") = false ∧
    ctxCoreList (some "Ctx") ["env:test"] [.vstr "", .vstr "tag1"] =
      ["[Ctx]", "[env:test]", "[tag1]"] := by
  constructor
  · exact (claim_C10_ctx_segment_truthy_filter (Logger.mkLogger none none none {} {}) []).2.1.1
  · have hdrop := (claim_C10_ctx_segment_truthy_filter
      (Logger.mkLogger none none none {} {}) []).2.2.1
      (some "Ctx") ["env:test"] [] (.vstr "") [.vstr "tag1"] (by decide)
    have horder := (claim_C10_ctx_segment_truthy_filter
      (Logger.mkLogger none none none {} {}) []).2.2.2.2
      "Ctx" ["env:test"] [.vstr "tag1"] (by decide) (by decide) (by decide)
    simp only [List.nil_append] at hdrop
    rw [hdrop, horder]
    simp [jsToString]

end NestLogger
